import Mathlib

/-!
Verification of the ollama-downloader manifest-driven blob download-and-commit
pipeline.  The definitions below are a shallow embedding of the Python source
under `src/ollama_downloader/`:

* `downloader/downloader.py`        — `Downloader` base class (pending-work
  tracker / `cleanup_unnecessary_files`),
* `downloader/model_downloader.py`  — `OllamaModelDownloader` (the primary
  variant: `_download_model_blob`, `_copy_blob_to_destination`,
  `_save_manifest_to_destination`, `download_model`),
* `model_downloader.py`             — the legacy flat `OllamaModelDownloader`
  variant (identical commit helpers, but `download_model` only logs a failed
  blob copy and proceeds to save the manifest),
* `hf_model_downloader.py`          — Hugging Face identifier parsing.

Filesystem paths are modelled as lists of path segments; the filesystem as the
set of existing directories plus a map from file paths to their contents.
Ownership (`shutil.chown`) and file modes (`os.chmod`) are metadata not
modelled by the filesystem state; the corresponding source lines change no
path and no content.  Network transfers are abstracted: the bytes of a blob
arrive as a `String` and the SHA-256 hex function is a parameter of the model.
-/

namespace OllamaDownloader

/-! ### Python string primitives

A Lean `String` wraps its `List Char`; the Python string operations the
source uses (`str.split(sep)`, slicing `[7:]`, single-character
`str.replace`, `in`) are defined structurally over that list so that every
theorem below can be evaluated by the kernel. -/

/-- `str.split(sep)` for a one-character separator, on the character list:
splits at every occurrence, keeping empty parts. -/
def splitOnChar (sep : Char) : List Char → List (List Char)
  | [] => [[]]
  | c :: rest =>
    let r := splitOnChar sep rest
    if c = sep then [] :: r
    else
      match r with
      | h :: t => (c :: h) :: t
      | [] => [[c]]

/-- Python `s.split(sep)` for a one-character separator. -/
def pySplit (sep : Char) (s : String) : List String :=
  (splitOnChar sep s.data).map String.mk

/-- Python slicing `s[n:]`. -/
def pyDrop (n : Nat) (s : String) : String := String.mk (s.data.drop n)

/-- Python `s.replace(a, b)` for one-character `a` and `b`. -/
def pyReplaceChar (a b : Char) (s : String) : String :=
  String.mk (s.data.map (fun c => if c = a then b else c))

/-- Python `c in s` for a one-character needle. -/
def pyContainsChar (c : Char) (s : String) : Bool := s.data.contains c

/-- A filesystem path, as the list of its segments (the result of successive
`os.path.join` applications from some root). -/
abbrev FsPath := List String

/-- The filesystem state: existing directories and existing files with their
contents.  A well-formed state never lists a path both as a directory and as
a file. -/
structure FS where
  dirs : List FsPath
  files : List (FsPath × String)
deriving DecidableEq, Repr

/-- The names (paths) of the existing files. -/
def FS.fileNames (fs : FS) : List FsPath := fs.files.map (·.1)

/-- `os.path.isdir`. -/
def FS.isdir (fs : FS) (p : FsPath) : Prop := p ∈ fs.dirs

instance (fs : FS) (p : FsPath) : Decidable (fs.isdir p) :=
  inferInstanceAs (Decidable (p ∈ fs.dirs))

/-- `os.path.exists`: true for an existing directory or file. -/
def FS.pathExists (fs : FS) (p : FsPath) : Prop :=
  p ∈ fs.dirs ∨ p ∈ fs.fileNames

instance (fs : FS) (p : FsPath) : Decidable (fs.pathExists p) :=
  inferInstanceAs (Decidable (p ∈ fs.dirs ∨ p ∈ fs.fileNames))

/-- Membership of a file with a given content. -/
def FS.readFile (fs : FS) (p : FsPath) : Option String :=
  (fs.files.find? (·.1 == p)).map (·.2)

/-- `open(target, "w").write(data)`: create or overwrite a file. -/
def FS.writeFile (fs : FS) (p : FsPath) (data : String) : FS :=
  { fs with files := fs.files.filter (·.1 ≠ p) ++ [(p, data)] }

/-- `os.remove`: delete a file (the caller checks existence; on a missing
file the Python call raises, which call sites model explicitly). -/
def FS.removeFile (fs : FS) (p : FsPath) : FS :=
  { fs with files := fs.files.filter (·.1 ≠ p) }

/-- Delete a directory entry (the emptiness check of `os.rmdir` is made at
the call site). -/
def FS.removeDir (fs : FS) (p : FsPath) : FS :=
  { fs with dirs := fs.dirs.filter (· ≠ p) }

/-- `shutil.move source target` for files: the source file disappears and the
target file holds its content.  The pipeline only calls this with an existing
source (the temp file written by the download phase). -/
def FS.move (fs : FS) (source target : FsPath) : FS :=
  match fs.readFile source with
  | some c => (fs.removeFile source).writeFile target c
  | none => fs

/-- The non-empty prefixes of a path: every directory level that
`os.makedirs` would ensure exists. -/
def pathLevels (p : FsPath) : List FsPath :=
  (List.range p.length).map (fun i => p.take (i + 1))

/-- `os.makedirs p`: create `p` together with every missing intermediate
directory level. -/
def FS.makedirs (fs : FS) (p : FsPath) : FS :=
  { fs with dirs := fs.dirs ++ (pathLevels p).filter (fun q => ¬ fs.dirs.contains q) }

/-- `d` is a proper prefix of `p`: `p` lives strictly below directory `d`. -/
def properPrefixOf (d p : FsPath) : Prop := d <+: p ∧ d ≠ p

instance (d p : FsPath) : Decidable (properPrefixOf d p) :=
  inferInstanceAs (Decidable (d <+: p ∧ d ≠ p))

/-- Every path (directory or file) known to the filesystem. -/
def FS.allPaths (fs : FS) : List FsPath := fs.dirs ++ fs.fileNames

/-- A directory is empty when no known path lives strictly below it (the
condition under which `os.rmdir` succeeds). -/
def FS.dirEmpty (fs : FS) (d : FsPath) : Prop :=
  ∀ p ∈ fs.allPaths, ¬ properPrefixOf d p

instance (fs : FS) (d : FsPath) : Decidable (fs.dirEmpty d) :=
  inferInstanceAs (Decidable (∀ p ∈ fs.allPaths, ¬ properPrefixOf d p))

/-! ### Python `set` operations

`Downloader._unnecessary_files` is a Python `set[str]`.  We model it as a
duplicate-free list: `add` inserts only when absent, `remove`/`discard`
drops the element. -/

/-- `s.add x` on a Python set. -/
def setAdd (s : List FsPath) (x : FsPath) : List FsPath :=
  if x ∈ s then s else s ++ [x]

/-- `s.remove x` on a Python set (call sites guarantee membership, so the
`KeyError` branch of the Python call is unreachable). -/
def setRemove (s : List FsPath) (x : FsPath) : List FsPath :=
  s.filter (· ≠ x)

/-! ### Identifier parsing

`OllamaModelDownloader.download_model` (downloader/model_downloader.py:288-292)
splits the identifier on `":"` with a default tag of `"latest"`;
`HuggingFaceModelDownloader.download_model` (downloader/hf_model_downloader.py:38-41)
additionally splits the part before the colon on `"/"`.  Python's
`str.split(sep)` with an explicit separator is `String.splitOn`. -/

/-- `model, tag = model_identifier.split(":") if ":" in model_identifier else
(model_identifier, "latest")` — the tuple unpacking raises unless the split
yields exactly two parts, hence the `Option`. -/
def parseOllamaIdentifier (s : String) : Option (String × String) :=
  if pyContainsChar ':' s then
    match pySplit ':' s with
    | [m, t] => some (m, t)
    | _ => none
  else
    some (s, "latest")

/-- `(user, model_repo), quant = (model_identifier.split(":")[0].split("/"),
model_identifier.split(":")[1])` — indexing `[1]` raises unless a colon is
present, and the inner unpacking raises unless the `/`-split yields exactly
two parts. -/
def parseHuggingFaceIdentifier (s : String) : Option (String × String × String) :=
  match pySplit ':' s with
  | first :: second :: _ =>
    match pySplit '/' first with
    | [user, repo] => some (user, repo, second)
    | _ => none
  | _ => none

/-! ### Manifest data model (`data/data_models.py`) -/

/-- `ImageManifestConfig` / `ImageManifestLayerEntry`: mediaType, size and
digest of one blob (layer entries also carry optional mirror URLs). -/
structure BlobDescriptor where
  mediaType : String
  size : Int
  digest : String
  urls : Option (List String) := none
deriving DecidableEq, Repr

/-- `ImageManifest`: schema version, media type, the config blob and the
ordered list of layer blobs. -/
structure ImageManifest where
  schemaVersion : Int
  mediaType : String
  config : BlobDescriptor
  layers : List BlobDescriptor
deriving DecidableEq, Repr

/-- The digests `download_model` processes, in program order: the config blob
first, then each layer in manifest order. -/
def manifestBlobDigests (m : ImageManifest) : List String :=
  m.config.digest :: m.layers.map (·.digest)

/-! ### Downloader state

One `Downloader`-derived instance carries the pending-work set
`_unnecessary_files` alongside the filesystem it acts on. -/

structure DLState where
  fs : FS
  unnecessary : List FsPath
deriving DecidableEq, Repr

/-- Static configuration consumed by the commit helpers: the (expanded)
`settings.ollama_library.models_path` and the registry hostname. -/
structure StoreCfg where
  modelsPath : FsPath
  registryHost : String
deriving DecidableEq, Repr

/-- `<models_path>/blobs`. -/
def StoreCfg.blobsDir (cfg : StoreCfg) : FsPath := cfg.modelsPath ++ ["blobs"]

/-- `<models_path>/manifests`. -/
def StoreCfg.manifestsToplevelDir (cfg : StoreCfg) : FsPath :=
  cfg.modelsPath ++ ["manifests"]

/-- `<models_path>/manifests/<registry-host>/library/<model>`. -/
def StoreCfg.manifestsDir (cfg : StoreCfg) (model : String) : FsPath :=
  cfg.manifestsToplevelDir ++ [cfg.registryHost, "library", model]

/-- `<models_path>/manifests/<registry-host>/library/<model>/<tag>`. -/
def StoreCfg.manifestTarget (cfg : StoreCfg) (model tag : String) : FsPath :=
  cfg.manifestsDir model ++ [tag]

/-- The final blob path `<models_path>/blobs/<digest with ":" replaced by "-">`. -/
def StoreCfg.blobTarget (cfg : StoreCfg) (namedDigest : String) : FsPath :=
  cfg.blobsDir ++ [pyReplaceChar ':' '-' namedDigest]

/-! ### `OllamaModelDownloader._copy_blob_to_destination`
(downloader/model_downloader.py:234-285; the flat variant's lines 210-261 are
textually identical).  Returns the Python pair `(success, target-or-None)`
next to the updated state. -/

def copyBlobToDestination (cfg : StoreCfg) (st : DLState)
    (source : FsPath) (namedDigest computedDigest : String) :
    (Bool × Option FsPath) × DLState :=
  if computedDigest ≠ pyDrop 7 namedDigest then
    ((false, none), st)
  else
    let blobsDir := cfg.blobsDir
    if ¬ st.fs.isdir blobsDir then
      ((false, none), st)
    else if ¬ st.fs.pathExists blobsDir then
      ((false, none), st)
    else
      let target := cfg.blobTarget namedDigest
      let fs' := st.fs.move source target
      -- shutil.chown / os.chmod: ownership and mode are not part of FS state
      let un' := setAdd (setRemove st.unnecessary source) target
      ((true, some target), { fs := fs', unnecessary := un' })

/-! ### `OllamaModelDownloader._save_manifest_to_destination`
(downloader/model_downloader.py:149-204).  Creates the manifest directory tree
when its leaf is missing (tracking only the leaf path), writes the manifest
bytes to `<manifests_dir>/<tag>`, and tracks the written file. -/

def saveManifestToDestination (cfg : StoreCfg) (st : DLState)
    (data model tag : String) : FsPath × DLState :=
  let manifestsDir := cfg.manifestsDir model
  let (fs₁, un₁) :=
    if ¬ st.fs.pathExists manifestsDir then
      (st.fs.makedirs manifestsDir, setAdd st.unnecessary manifestsDir)
    else
      (st.fs, st.unnecessary)
  let targetFile := manifestsDir ++ [tag]
  let fs₂ := fs₁.writeFile targetFile data
  -- shutil.chown on the file and its directories: metadata, not modelled
  let un₂ := setAdd un₁ targetFile
  (targetFile, { fs := fs₂, unnecessary := un₂ })

/-! ### `download_model` pipeline traces

`download_model` (downloader/model_downloader.py:287-374) first downloads the
config blob, then each layer in manifest order, collecting
`files_to_be_copied = [(temp, named_digest, computed_digest), ...]`; then it
commits each entry with `_copy_blob_to_destination` (raising `RuntimeError` on
the first failure) and finally calls `_save_manifest_to_destination`.  The
legacy flat variant (model_downloader.py:263-311) only *logs* a failed copy
and still saves the manifest.  We record the externally observable effects as
an event trace. -/

inductive DlEv where
  | fetch (digest : String)
  | commit (digest : String)
  | manifest
deriving DecidableEq, Repr

/-- The per-download environment the network provides: for each named digest,
the temp file `tempfile.NamedTemporaryFile` handed out, the bytes that arrived
and the SHA-256 hex digest function (`hashlib.new("sha256")`,
downloader/model_downloader.py:117). -/
structure FetchEnv where
  tempOf : String → FsPath
  contentOf : String → String
  sha256Hex : String → String

/-- `_download_model_blob` (downloader/model_downloader.py:104-147): registers
the temp file in `_unnecessary_files`, streams the blob into it while hashing,
and returns `(temp_file.name, sha256_hash.hexdigest())`.  The computed digest
is always the SHA-256 of the received bytes, whatever algorithm
`named_digest` names. -/
def downloadModelBlob (env : FetchEnv) (st : DLState) (namedDigest : String) :
    (FsPath × String) × DLState :=
  let temp := env.tempOf namedDigest
  let st₁ := { st with unnecessary := setAdd st.unnecessary temp }
  let content := env.contentOf namedDigest
  let st₂ := { st₁ with fs := st₁.fs.writeFile temp content }
  ((temp, env.sha256Hex content), st₂)

/-- The download phase of `download_model`: config blob first, then each layer
in order, accumulating `files_to_be_copied` and the fetch events. -/
def downloadPhase (env : FetchEnv) (st : DLState) :
    List String → DLState × List (FsPath × String × String) × List DlEv
  | [] => (st, [], [])
  | d :: rest =>
    let b := downloadModelBlob env st d
    let next := downloadPhase env b.2 rest
    (next.1, (b.1.1, d, b.1.2) :: next.2.1, .fetch d :: next.2.2)

/-- The commit loop of the downloader/ variant (lines 325-334): commit each
entry in order; a failed `_copy_blob_to_destination` raises, stopping the
loop.  Returns whether all commits succeeded, the state reached and the
commit events emitted. -/
def commitLoopRaising (cfg : StoreCfg) :
    List (FsPath × String × String) → DLState → Bool × DLState × List DlEv
  | [], st => (true, st, [])
  | (source, nd, cd) :: rest, st =>
    let r := copyBlobToDestination cfg st source nd cd
    if r.1.1 then
      let next := commitLoopRaising cfg rest r.2
      (next.1, next.2.1, .commit nd :: next.2.2)
    else
      (false, r.2, [])

/-- The commit loop of the legacy flat variant (model_downloader.py:298-305):
a failed copy is logged and the loop continues. -/
def commitLoopLogging (cfg : StoreCfg) :
    List (FsPath × String × String) → DLState → DLState × List DlEv
  | [], st => (st, [])
  | (source, nd, cd) :: rest, st =>
    let r := copyBlobToDestination cfg st source nd cd
    let next := commitLoopLogging cfg rest r.2
    (next.1, (if r.1.1 then [DlEv.commit nd] else []) ++ next.2)

/-- `download_model` of the downloader/ variant, through the manifest save:
download all blobs, commit them in order, and save the manifest only when
every commit succeeded (a failed commit raises before the save). -/
def downloadModelRaising (cfg : StoreCfg) (env : FetchEnv)
    (m : ImageManifest) (manifestData model tag : String) (st : DLState) :
    Bool × DLState × List DlEv :=
  let dp := downloadPhase env st (manifestBlobDigests m)
  let cr := commitLoopRaising cfg dp.2.1 dp.1
  if cr.1 then
    (true, (saveManifestToDestination cfg cr.2.1 manifestData model tag).2,
      dp.2.2 ++ cr.2.2 ++ [.manifest])
  else
    (false, cr.2.1, dp.2.2 ++ cr.2.2)

/-- `download_model` of the legacy flat variant, through the manifest save:
the manifest is saved unconditionally after the (log-and-continue) commit
loop. -/
def downloadModelLogging (cfg : StoreCfg) (env : FetchEnv)
    (m : ImageManifest) (manifestData model tag : String) (st : DLState) :
    DLState × List DlEv :=
  let dp := downloadPhase env st (manifestBlobDigests m)
  let cl := commitLoopLogging cfg dp.2.1 dp.1
  ((saveManifestToDestination cfg cl.1 manifestData model tag).2,
    dp.2.2 ++ cl.2 ++ [.manifest])

/-- The digests carried by the fetch events of a trace. -/
def fetchedDigests (evs : List DlEv) : List String :=
  evs.filterMap (fun e => match e with | .fetch d => some d | _ => none)

/-- The digests carried by the commit (blob-store write) events of a trace. -/
def committedDigests (evs : List DlEv) : List String :=
  evs.filterMap (fun e => match e with | .commit d => some d | _ => none)

/-! ### Post-download inventory check
(downloader/model_downloader.py:351-364): scan `ollama_client.list().models`
for the first entry whose `model` equals `f"{model}:{tag}"` and whose
`modified_at`, compared with the manifest-save timestamp, differs by strictly
less than `datetime.timedelta(minutes=1)` in absolute value.  Timestamps are
modelled in whole seconds. -/

/-- One entry of the runtime inventory: canonical model name and
`modified_at` (seconds). -/
structure InventoryEntry where
  model : String
  modifiedAt : Int
deriving DecidableEq, Repr

/-- The search loop over `models_list.models` with its `break`. -/
def findDownloadedModel (models : List InventoryEntry)
    (model tag : String) (ts : Int) : Option InventoryEntry :=
  models.find? (fun mi =>
    mi.model == model ++ ":" ++ tag && (mi.modifiedAt - ts).natAbs < 60)

/-! ### `Downloader.cleanup_unnecessary_files`
(downloader/downloader.py:65-97).  Guarded by the `_cleanup_running` flag;
iterates a snapshot of `_unnecessary_files`: a non-directory entry is
`os.remove`d (a failure — the path no longer exists — is logged and the entry
stays tracked); a directory entry is deferred and untracked; afterwards each
deferred directory is `os.rmdir`ed, which succeeds only on an existing empty
directory (failures are logged, non-fatal). -/

structure CleanupState where
  fs : FS
  tracked : List FsPath
  cleanupRunning : Bool
deriving DecidableEq, Repr

/-- The first loop of `cleanup_unnecessary_files` over the snapshot
`list(self._unnecessary_files)`: returns the filesystem, the surviving
tracked set and the deferred directories. -/
def cleanupFilesLoop :
    List FsPath → FS → List FsPath → List FsPath →
    FS × List FsPath × List FsPath
  | [], fs, tracked, deferred => (fs, tracked, deferred)
  | f :: rest, fs, tracked, deferred =>
    if fs.isdir f then
      -- directory: deferred for the second loop, untracked now
      cleanupFilesLoop rest fs (setRemove tracked f) (deferred ++ [f])
    else if f ∈ fs.fileNames then
      -- plain file: os.remove succeeds, entry untracked
      cleanupFilesLoop rest (fs.removeFile f) (setRemove tracked f) deferred
    else
      -- os.remove raises (path gone): logged, entry stays tracked
      cleanupFilesLoop rest fs tracked deferred

/-- The second loop: `os.rmdir` each deferred directory, succeeding only on
an existing empty directory. -/
def cleanupDirsLoop : List FsPath → FS → FS
  | [], fs => fs
  | d :: rest, fs =>
    if fs.isdir d ∧ fs.dirEmpty d then
      cleanupDirsLoop rest (fs.removeDir d)
    else
      cleanupDirsLoop rest fs

/-- `cleanup_unnecessary_files`: a no-op while `_cleanup_running` is set;
otherwise run both loops and reset the flag. -/
def cleanupUnnecessaryFiles (s : CleanupState) : CleanupState :=
  if s.cleanupRunning then
    s
  else
    let r := cleanupFilesLoop s.tracked s.fs s.tracked []
    { fs := cleanupDirsLoop r.2.2 r.1, tracked := r.2.1,
      cleanupRunning := false }

/-! ### Python class-attribute sharing
(downloader/downloader.py:19-20).  `_cleanup_running` and `_unnecessary_files`
are *class* attributes of `Downloader`.  Python attribute lookup on
`self._unnecessary_files` consults the instance `__dict__` first and falls
back to the class; no `__init__` in the source assigns either name on an
instance, so `self._unnecessary_files.add(...)`
(downloader/model_downloader.py:119) mutates the one class-level set object
shared by every instance. -/

/-- The single class-level state of `Downloader`. -/
structure DownloaderClassState where
  unnecessaryFiles : List FsPath
  cleanupRunning : Bool
deriving DecidableEq, Repr

/-- An instance's `__dict__`, restricted to the two names of interest:
`none` means the name is not shadowed on the instance. -/
structure DownloaderInstance where
  instUnnecessaryFiles : Option (List FsPath)
deriving DecidableEq, Repr

/-- A freshly constructed `OllamaModelDownloader` or
`HuggingFaceModelDownloader` (downloader/ variants): neither `__init__`
assigns `_unnecessary_files` on the instance. -/
def freshDownloaderInstance : DownloaderInstance := { instUnnecessaryFiles := none }

/-- Reading `self._unnecessary_files`: instance `__dict__` first, class
attribute as fallback. -/
def readUnnecessaryFiles (cls : DownloaderClassState)
    (inst : DownloaderInstance) : List FsPath :=
  inst.instUnnecessaryFiles.getD cls.unnecessaryFiles

/-- `self._unnecessary_files.add(p)`: mutates whichever set object the lookup
found — the class-level one when the instance does not shadow it. -/
def trackViaInstance (cls : DownloaderClassState) (inst : DownloaderInstance)
    (p : FsPath) : DownloaderClassState × DownloaderInstance :=
  match inst.instUnnecessaryFiles with
  | some s => (cls, { inst with instUnnecessaryFiles := some (setAdd s p) })
  | none => ({ cls with unnecessaryFiles := setAdd cls.unnecessaryFiles p }, inst)

/-- `self.cleanup_unnecessary_files()` invoked through an instance that does
not shadow the class attributes (the only case the source constructs):
operates on, and writes back to, the shared class-level set and flag. -/
def cleanupViaInstance (cls : DownloaderClassState)
    (inst : DownloaderInstance) (fs : FS) : DownloaderClassState × FS :=
  let s := cleanupUnnecessaryFiles
    { fs := fs, tracked := readUnnecessaryFiles cls inst,
      cleanupRunning := cls.cleanupRunning }
  ({ cls with unnecessaryFiles := s.tracked, cleanupRunning := s.cleanupRunning },
    s.fs)

/-! ### Concrete fixtures

Small concrete instances used by the counterexamples and witnesses: a store
rooted at "root" with a provisioned blobs directory, a fetch environment
whose hash oracle matches every declared digest, and one whose constant hash
makes the single layer of `exManifestFail` fail digest verification while
the config blob passes. -/

def exCfg : StoreCfg := { modelsPath := ["root"], registryHost := "reg" }

def exSt : DLState :=
  { fs := { dirs := [["root"], ["root", "blobs"]], files := [] }, unnecessary := [] }

/-- Every download hashes to the declared digest minus its 7-character
prefix, so every commit succeeds. -/
def exEnvOk : FetchEnv :=
  { tempOf := fun dg => ["tmp", dg], contentOf := fun dg => dg,
    sha256Hex := fun s => pyDrop 7 s }

/-- The hash oracle always answers "aa": a blob declared "sha256:aa" passes
verification, any other digest fails. -/
def exEnvConstHash : FetchEnv :=
  { tempOf := fun dg => ["tmp", dg], contentOf := fun dg => dg,
    sha256Hex := fun _ => "aa" }

/-- One config blob ("sha256:aa") and one layer ("sha256:bb"). -/
def exManifestFail : ImageManifest :=
  { schemaVersion := 2, mediaType := "mt",
    config := { mediaType := "c", size := 1, digest := "sha256:aa" },
    layers := [{ mediaType := "l", size := 2, digest := "sha256:bb" }] }

/-- A manifest with three layers A, B, C (after the config blob). -/
def exManifestABC : ImageManifest :=
  { schemaVersion := 2, mediaType := "mt",
    config := { mediaType := "c", size := 1, digest := "sha256:dddd" },
    layers := [{ mediaType := "l", size := 2, digest := "sha256:aaaa" },
               { mediaType := "l", size := 2, digest := "sha256:bbbb" },
               { mediaType := "l", size := 2, digest := "sha256:cccc" }] }

/-- A cleanup fixture: a tracked plain file "f", a tracked empty directory
"d", a tracked non-empty directory "e" (containing the untracked file
"e/g"). -/
def exCleanupSt : CleanupState :=
  { fs := { dirs := [["d"], ["e"]], files := [(["f"], "x"), (["e", "g"], "y")] },
    tracked := [["f"], ["d"], ["e"]], cleanupRunning := false }

/-! ## Helper lemmas -/

theorem mem_setAdd_iff (s : List FsPath) (x y : FsPath) :
    y ∈ setAdd s x ↔ y ∈ s ∨ y = x := by
  unfold setAdd
  split
  next h =>
    constructor
    · exact Or.inl
    · rintro (hy | rfl)
      · exact hy
      · exact h
  next h => simp

theorem mem_setAdd_self (s : List FsPath) (x : FsPath) : x ∈ setAdd s x :=
  (mem_setAdd_iff s x x).mpr (Or.inr rfl)

theorem mem_setRemove_iff (s : List FsPath) (x y : FsPath) :
    y ∈ setRemove s x ↔ y ∈ s ∧ y ≠ x := by
  unfold setRemove
  simp

theorem move_dirs (fs : FS) (source target : FsPath) :
    (fs.move source target).dirs = fs.dirs := by
  unfold FS.move FS.removeFile FS.writeFile
  split <;> rfl

theorem isdir_pathExists {fs : FS} {p : FsPath} (h : fs.isdir p) :
    fs.pathExists p := Or.inl h

theorem pathLevels_self_mem {p : FsPath} (h : p ≠ []) : p ∈ pathLevels p := by
  unfold pathLevels
  have hlen : 0 < p.length := List.length_pos.mpr h
  refine List.mem_map.mpr ⟨p.length - 1, ?_, ?_⟩
  · exact List.mem_range.mpr (Nat.sub_lt hlen Nat.one_pos)
  · rw [Nat.sub_add_cancel hlen, List.take_length]

theorem makedirs_mem_self (fs : FS) {p : FsPath} (h : p ≠ []) :
    p ∈ (fs.makedirs p).dirs := by
  unfold FS.makedirs
  by_cases hp : p ∈ fs.dirs
  · exact List.mem_append_left _ hp
  · refine List.mem_append_right _ (List.mem_filter.mpr ⟨pathLevels_self_mem h, ?_⟩)
    simpa using hp

/-- Success condition of `_copy_blob_to_destination`: the commit succeeds
exactly when the computed digest equals the declared digest shorn of its
first seven characters and the blobs directory exists. -/
theorem copyBlob_success_iff (cfg : StoreCfg) (st : DLState)
    (source : FsPath) (nd cd : String) :
    (copyBlobToDestination cfg st source nd cd).1.1 = true ↔
      cd = pyDrop 7 nd ∧ st.fs.isdir cfg.blobsDir := by
  unfold copyBlobToDestination
  by_cases h1 : cd = pyDrop 7 nd
  · by_cases h2 : st.fs.isdir cfg.blobsDir
    · simp [h1, h2, isdir_pathExists h2]
    · simp [h1, h2]
  · simp [h1]

/-- The state produced by a successful `_copy_blob_to_destination`. -/
theorem copyBlob_success_state (cfg : StoreCfg) (st : DLState)
    (source : FsPath) (nd cd : String)
    (h : (copyBlobToDestination cfg st source nd cd).1.1 = true) :
    (copyBlobToDestination cfg st source nd cd).2 =
      { fs := st.fs.move source (cfg.blobTarget nd),
        unnecessary := setAdd (setRemove st.unnecessary source) (cfg.blobTarget nd) } := by
  obtain ⟨hcd, hdir⟩ := (copyBlob_success_iff cfg st source nd cd).mp h
  unfold copyBlobToDestination
  rw [hcd]
  simp [hdir, isdir_pathExists hdir]

/-- A failed `_copy_blob_to_destination` leaves the state untouched. -/
theorem copyBlob_failure_state (cfg : StoreCfg) (st : DLState)
    (source : FsPath) (nd cd : String)
    (h : (copyBlobToDestination cfg st source nd cd).1.1 = false) :
    copyBlobToDestination cfg st source nd cd = ((false, none), st) := by
  by_cases h1 : cd = pyDrop 7 nd
  · by_cases h2 : st.fs.isdir cfg.blobsDir
    · rw [(copyBlob_success_iff cfg st source nd cd).mpr ⟨h1, h2⟩] at h
      exact Bool.noConfusion h
    · unfold copyBlobToDestination
      rw [h1]
      simp [h2]
  · unfold copyBlobToDestination
    simp [h1]

theorem mem_fileNames_writeFile {fs : FS} {q p : FsPath} {d : String}
    (h : p ∈ (fs.writeFile q d).fileNames) : p ∈ fs.fileNames ∨ p = q := by
  unfold FS.writeFile FS.fileNames at h
  unfold FS.fileNames
  simp only [List.map_append, List.mem_append, List.mem_map, List.mem_filter] at h
  rcases h with ⟨x, ⟨hx, _⟩, rfl⟩ | h
  · exact Or.inl (List.mem_map.mpr ⟨x, hx, rfl⟩)
  · obtain ⟨x, hx, hp⟩ := h
    rw [List.mem_singleton] at hx
    subst hx
    exact Or.inr hp.symm

theorem mem_fileNames_move {fs : FS} {s t p : FsPath}
    (h : p ∈ (fs.move s t).fileNames) : p ∈ fs.fileNames ∨ p = t := by
  unfold FS.move at h
  split at h
  · rcases mem_fileNames_writeFile h with h | h
    · unfold FS.removeFile FS.fileNames at h
      simp only [List.mem_map, List.mem_filter] at h
      obtain ⟨x, ⟨hx, _⟩, rfl⟩ := h
      exact Or.inl (List.mem_map.mpr ⟨x, hx, rfl⟩)
    · exact Or.inr h
  · exact Or.inl h

/-- The artifacts of the download phase: its final filesystem holds only
pre-existing files and the temp files of the processed digests. -/
theorem downloadPhase_files (env : FetchEnv) (ds : List String) (st : DLState)
    {p : FsPath} (h : p ∈ ((downloadPhase env st ds).1).fs.fileNames) :
    p ∈ st.fs.fileNames ∨ ∃ d ∈ ds, p = env.tempOf d := by
  induction ds generalizing st with
  | nil => exact Or.inl h
  | cons d rest ih =>
    simp only [downloadPhase, downloadModelBlob] at h
    rcases ih _ h with h | ⟨d₂, hd₂, rfl⟩
    · rcases mem_fileNames_writeFile h with h | rfl
      · exact Or.inl h
      · exact Or.inr ⟨d, List.mem_cons_self d rest, rfl⟩
    · exact Or.inr ⟨d₂, List.mem_cons_of_mem d hd₂, rfl⟩

/-- `files_to_be_copied` as assembled by the download phase. -/
theorem downloadPhase_entries (env : FetchEnv) (ds : List String) (st : DLState) :
    (downloadPhase env st ds).2.1
      = ds.map (fun d => (env.tempOf d, d, env.sha256Hex (env.contentOf d))) := by
  induction ds generalizing st with
  | nil => rfl
  | cons d rest ih => simp [downloadPhase, downloadModelBlob, ih]

/-- The download phase emits exactly one fetch event per digest, in order. -/
theorem downloadPhase_events (env : FetchEnv) (ds : List String) (st : DLState) :
    (downloadPhase env st ds).2.2 = ds.map DlEv.fetch := by
  induction ds generalizing st with
  | nil => rfl
  | cons d rest ih => simp [downloadPhase, ih]

/-- A fully successful raising commit loop emits one commit event per entry,
in order. -/
theorem commitLoopRaising_events (cfg : StoreCfg)
    (entries : List (FsPath × String × String)) (st : DLState)
    (hok : (commitLoopRaising cfg entries st).1 = true) :
    (commitLoopRaising cfg entries st).2.2
      = entries.map (fun e => DlEv.commit e.2.1) := by
  induction entries generalizing st with
  | nil => rfl
  | cons e rest ih =>
    obtain ⟨source, nd, cd⟩ := e
    by_cases hr : (copyBlobToDestination cfg st source nd cd).1.1 = true
    · simp only [commitLoopRaising, hr, if_pos] at hok ⊢
      simp [ih _ hok]
    · simp [commitLoopRaising, hr] at hok

/-- The raising commit loop never emits a manifest event. -/
theorem commitLoopRaising_no_manifest (cfg : StoreCfg)
    (entries : List (FsPath × String × String)) (st : DLState) :
    DlEv.manifest ∉ (commitLoopRaising cfg entries st).2.2 := by
  induction entries generalizing st with
  | nil => simp [commitLoopRaising]
  | cons e rest ih =>
    obtain ⟨source, nd, cd⟩ := e
    by_cases hr : (copyBlobToDestination cfg st source nd cd).1.1 = true <;>
      simp [commitLoopRaising, hr, ih]

/-- The raising commit loop creates only blob-store target files. -/
theorem commitLoopRaising_files (cfg : StoreCfg)
    (entries : List (FsPath × String × String)) (st : DLState) {p : FsPath}
    (h : p ∈ ((commitLoopRaising cfg entries st).2.1).fs.fileNames) :
    p ∈ st.fs.fileNames ∨ ∃ nd, p = cfg.blobTarget nd := by
  induction entries generalizing st with
  | nil => exact Or.inl h
  | cons e rest ih =>
    obtain ⟨source, nd, cd⟩ := e
    by_cases hr : (copyBlobToDestination cfg st source nd cd).1.1 = true
    · simp only [commitLoopRaising, hr, if_pos] at h
      rcases ih _ h with h | h
      · rw [copyBlob_success_state cfg st source nd cd hr] at h
        rcases mem_fileNames_move h with h | rfl
        · exact Or.inl h
        · exact Or.inr ⟨nd, rfl⟩
      · exact Or.inr h
    · simp only [commitLoopRaising, hr, if_neg, Bool.false_eq_true,
        not_false_iff] at h
      rw [copyBlob_failure_state cfg st source nd cd (by simpa using hr)] at h
      exact Or.inl h

/-- A blob-store path never coincides with a manifest file path: the segment
after the store root is "blobs" for one and "manifests" for the other. -/
theorem blobTarget_ne_manifestTarget (cfg : StoreCfg) (nd model tag : String) :
    cfg.blobTarget nd ≠ cfg.manifestTarget model tag := by
  unfold StoreCfg.blobTarget StoreCfg.blobsDir StoreCfg.manifestTarget
    StoreCfg.manifestsDir StoreCfg.manifestsToplevelDir
  intro h
  simp only [List.append_assoc] at h
  have := List.append_cancel_left h
  simp at this

theorem fetchedDigests_append (a b : List DlEv) :
    fetchedDigests (a ++ b) = fetchedDigests a ++ fetchedDigests b := by
  unfold fetchedDigests
  exact List.filterMap_append a b _

theorem committedDigests_append (a b : List DlEv) :
    committedDigests (a ++ b) = committedDigests a ++ committedDigests b := by
  unfold committedDigests
  exact List.filterMap_append a b _

theorem fetchedDigests_map_fetch (ds : List String) :
    fetchedDigests (ds.map DlEv.fetch) = ds := by
  induction ds with
  | nil => rfl
  | cons d rest ih =>
    unfold fetchedDigests at ih ⊢
    simp only [List.map_cons, List.filterMap_cons]
    exact congrArg (d :: ·) ih

theorem committedDigests_map_fetch (ds : List String) :
    committedDigests (ds.map DlEv.fetch) = [] := by
  induction ds with
  | nil => rfl
  | cons d rest ih =>
    unfold committedDigests at ih ⊢
    simp only [List.map_cons, List.filterMap_cons]
    exact ih

theorem fetchedDigests_commitLoopRaising (cfg : StoreCfg)
    (entries : List (FsPath × String × String)) (st : DLState) :
    fetchedDigests (commitLoopRaising cfg entries st).2.2 = [] := by
  induction entries generalizing st with
  | nil => rfl
  | cons e rest ih =>
    obtain ⟨source, nd, cd⟩ := e
    by_cases hr : (copyBlobToDestination cfg st source nd cd).1.1 = true
    · simp only [commitLoopRaising, hr, if_pos]
      unfold fetchedDigests at ih ⊢
      simp only [List.filterMap_cons]
      exact ih _
    · simp [commitLoopRaising, hr, fetchedDigests]

theorem committedDigests_map_commit {α : Type} (l : List α) (f : α → String) :
    committedDigests (l.map (fun e => DlEv.commit (f e))) = l.map f := by
  induction l with
  | nil => rfl
  | cons x rest ih =>
    unfold committedDigests at ih ⊢
    simp only [List.map_cons, List.filterMap_cons]
    exact congrArg (f x :: ·) ih

theorem committedDigests_commit_entries (env : FetchEnv) (ds : List String) :
    committedDigests (((ds.map (fun d =>
        (env.tempOf d, d, env.sha256Hex (env.contentOf d)))).map
          (fun e => DlEv.commit e.2.1))) = ds := by
  induction ds with
  | nil => rfl
  | cons d rest ih =>
    unfold committedDigests at ih ⊢
    simp only [List.map_cons, List.filterMap_cons]
    exact congrArg (d :: ·) ih

/-! ## Claims -/

/-- Claim C1: in the downloader/ variant of download_model a failed blob
commit raises before the manifest save, so the manifest event occurs exactly
when every one of the N+1 commits succeeded, and on failure the manifest
file is never present in the final filesystem (first two conjuncts); the
legacy flat variant, however, logs the failed copy and persists the manifest
anyway — on a run whose only layer "sha256:bb" fails digest verification,
no commit event for it exists yet the manifest event occurs and the manifest
file is on disk (third conjunct: the code bug). -/
theorem manifest_write_atomicity :
    (∀ (cfg : StoreCfg) (env : FetchEnv) (m : ImageManifest)
        (data model tag : String) (st : DLState),
      DlEv.manifest ∈ (downloadModelRaising cfg env m data model tag st).2.2 ↔
        (downloadModelRaising cfg env m data model tag st).1 = true) ∧
    (∀ (cfg : StoreCfg) (env : FetchEnv) (m : ImageManifest)
        (data model tag : String) (st : DLState),
      (downloadModelRaising cfg env m data model tag st).1 = false →
      cfg.manifestTarget model tag ∉ st.fs.fileNames →
      (∀ dg, cfg.manifestTarget model tag ≠ env.tempOf dg) →
      cfg.manifestTarget model tag
        ∉ ((downloadModelRaising cfg env m data model tag st).2.1).fs.fileNames) ∧
    (DlEv.commit "sha256:bb"
        ∉ (downloadModelLogging exCfg exEnvConstHash exManifestFail
            "DATA" "m" "t" exSt).2 ∧
      DlEv.manifest
        ∈ (downloadModelLogging exCfg exEnvConstHash exManifestFail
            "DATA" "m" "t" exSt).2 ∧
      exCfg.manifestTarget "m" "t"
        ∈ ((downloadModelLogging exCfg exEnvConstHash exManifestFail
            "DATA" "m" "t" exSt).1).fs.fileNames) := by
  refine ⟨?_, ?_, by decide, by decide, by decide⟩
  · intro cfg env m data model tag st
    unfold downloadModelRaising
    by_cases hok : (commitLoopRaising cfg
        (downloadPhase env st (manifestBlobDigests m)).2.1
        (downloadPhase env st (manifestBlobDigests m)).1).1 = true
    · simp [hok]
    · simp [hok, downloadPhase_events, commitLoopRaising_no_manifest]
  · intro cfg env m data model tag st hfail hinit htmp hmem
    unfold downloadModelRaising at hfail hmem
    by_cases hok : (commitLoopRaising cfg
        (downloadPhase env st (manifestBlobDigests m)).2.1
        (downloadPhase env st (manifestBlobDigests m)).1).1 = true
    · simp [hok] at hfail
    · simp only [hok, if_neg, Bool.false_eq_true, not_false_iff] at hmem
      rcases commitLoopRaising_files cfg _ _ hmem with h | ⟨nd, hnd⟩
      · rcases downloadPhase_files env _ _ h with h | ⟨d, _, heq⟩
        · exact hinit h
        · exact htmp d heq
      · exact blobTarget_ne_manifestTarget cfg nd model tag hnd.symm

theorem manifest_write_atomicity_witness :
    (DlEv.manifest ∈ (downloadModelRaising exCfg exEnvConstHash exManifestFail
        "DATA" "m" "t" exSt).2.2 ↔
      (downloadModelRaising exCfg exEnvConstHash exManifestFail
        "DATA" "m" "t" exSt).1 = true) ∧
    exCfg.manifestTarget "m" "t"
      ∉ ((downloadModelRaising exCfg exEnvConstHash exManifestFail
          "DATA" "m" "t" exSt).2.1).fs.fileNames :=
  ⟨manifest_write_atomicity.1 exCfg exEnvConstHash exManifestFail "DATA" "m" "t" exSt,
   manifest_write_atomicity.2.1 exCfg exEnvConstHash exManifestFail "DATA" "m" "t" exSt
     (by decide) (by decide)
     (fun dg h => by
       simp [exCfg, exEnvConstHash, StoreCfg.manifestTarget, StoreCfg.manifestsDir,
         StoreCfg.manifestsToplevelDir] at h)⟩

/-- Claim C5: blobs are fetched and committed in a fixed order — the config
blob first, then each layer in the exact order the manifest lists them; when
every commit succeeds (in particular for a manifest with layers [A, B, C]),
the blob-store write events follow that same order. -/
theorem blob_fetch_commit_order (cfg : StoreCfg) (env : FetchEnv)
    (m : ImageManifest) (data model tag : String) (st : DLState) :
    fetchedDigests (downloadModelRaising cfg env m data model tag st).2.2
      = m.config.digest :: m.layers.map (·.digest) ∧
    ((downloadModelRaising cfg env m data model tag st).1 = true →
      committedDigests (downloadModelRaising cfg env m data model tag st).2.2
        = m.config.digest :: m.layers.map (·.digest)) := by
  have hdig : manifestBlobDigests m = m.config.digest :: m.layers.map (·.digest) := rfl
  unfold downloadModelRaising
  by_cases hok : (commitLoopRaising cfg
      (downloadPhase env st (manifestBlobDigests m)).2.1
      (downloadPhase env st (manifestBlobDigests m)).1).1 = true
  · constructor
    · simp only [hok, if_pos]
      rw [fetchedDigests_append, fetchedDigests_append, downloadPhase_events,
        fetchedDigests_map_fetch, fetchedDigests_commitLoopRaising]
      simp [fetchedDigests, hdig]
    · intro _
      simp only [hok, if_pos]
      rw [committedDigests_append, committedDigests_append,
        downloadPhase_events, committedDigests_map_fetch,
        commitLoopRaising_events cfg _ _ hok, downloadPhase_entries,
        committedDigests_commit_entries]
      simp [committedDigests, hdig]
  · constructor
    · simp only [hok, if_neg, Bool.false_eq_true, not_false_iff]
      rw [fetchedDigests_append, downloadPhase_events,
        fetchedDigests_map_fetch, fetchedDigests_commitLoopRaising]
      simp [hdig]
    · intro h
      simp [hok] at h

theorem mem_fileNames_removeFile (fs : FS) (q p : FsPath) :
    p ∈ (fs.removeFile q).fileNames ↔ p ∈ fs.fileNames ∧ p ≠ q := by
  unfold FS.removeFile FS.fileNames
  simp only [List.mem_map, List.mem_filter, decide_eq_true_eq]
  constructor
  · rintro ⟨x, ⟨hx, hne⟩, rfl⟩
    exact ⟨⟨x, hx, rfl⟩, hne⟩
  · rintro ⟨⟨x, hx, rfl⟩, hne⟩
    exact ⟨x, ⟨hx, hne⟩, rfl⟩

theorem mem_dirs_removeDir (fs : FS) (q p : FsPath) :
    p ∈ (fs.removeDir q).dirs ↔ p ∈ fs.dirs ∧ p ≠ q := by
  unfold FS.removeDir
  simp

theorem cleanupFilesLoop_dirs (l : List FsPath) (fs : FS) (t d : List FsPath) :
    (cleanupFilesLoop l fs t d).1.dirs = fs.dirs := by
  induction l generalizing fs t d with
  | nil => rfl
  | cons a rest ih =>
    unfold cleanupFilesLoop
    split_ifs with h1 h2
    · exact ih fs _ _
    · rw [ih]
      rfl
    · exact ih fs t d

theorem cleanupFilesLoop_files_subset (l : List FsPath) (fs : FS)
    (t d : List FsPath) {p : FsPath}
    (h : p ∈ (cleanupFilesLoop l fs t d).1.fileNames) : p ∈ fs.fileNames := by
  induction l generalizing fs t d with
  | nil => exact h
  | cons a rest ih =>
    unfold cleanupFilesLoop at h
    split_ifs at h with h1 h2
    · exact ih _ _ _ h
    · exact ((mem_fileNames_removeFile fs a p).mp (ih _ _ _ h)).1
    · exact ih _ _ _ h

theorem cleanupFilesLoop_files_preserved (l : List FsPath) (fs : FS)
    (t d : List FsPath) {p : FsPath} (hp : p ∉ l) :
    p ∈ (cleanupFilesLoop l fs t d).1.fileNames ↔ p ∈ fs.fileNames := by
  induction l generalizing fs t d with
  | nil => exact Iff.rfl
  | cons a rest ih =>
    have hpa : p ≠ a := fun h => hp (h ▸ List.mem_cons_self a rest)
    have hpr : p ∉ rest := fun h => hp (List.mem_cons_of_mem a h)
    unfold cleanupFilesLoop
    split_ifs with h1 h2
    · exact ih _ _ _ hpr
    · rw [ih _ _ _ hpr, mem_fileNames_removeFile]
      exact ⟨fun h => h.1, fun h => ⟨h, hpa⟩⟩
    · exact ih _ _ _ hpr

theorem cleanupFilesLoop_removes_file (l : List FsPath) :
    ∀ (fs : FS) (t d : List FsPath) (f : FsPath), f ∈ l → ¬ fs.isdir f →
      f ∉ (cleanupFilesLoop l fs t d).1.fileNames := by
  induction l with
  | nil => intro fs t d f hf; cases hf
  | cons a rest ih =>
    intro fs t d f hf hnd
    unfold cleanupFilesLoop
    split_ifs with h1 h2
    · have hfa : f ≠ a := fun h => hnd (h ▸ h1)
      exact ih fs _ _ f (List.mem_of_ne_of_mem hfa hf) hnd
    · by_cases hfa : f = a
      · subst hfa
        intro hmem
        exact ((mem_fileNames_removeFile fs f f).mp
          (cleanupFilesLoop_files_subset _ _ _ _ hmem)).2 rfl
      · exact ih _ _ _ f (List.mem_of_ne_of_mem hfa hf) hnd
    · by_cases hfa : f = a
      · subst hfa
        intro hmem
        exact h2 (cleanupFilesLoop_files_subset _ _ _ _ hmem)
      · exact ih fs _ _ f (List.mem_of_ne_of_mem hfa hf) hnd

theorem cleanupFilesLoop_tracked_subset (l : List FsPath) (fs : FS)
    (t d : List FsPath) : (cleanupFilesLoop l fs t d).2.1 ⊆ t := by
  induction l generalizing fs t d with
  | nil => exact fun _ h => h
  | cons a rest ih =>
    unfold cleanupFilesLoop
    split_ifs with h1 h2
    · exact fun p hp => ((mem_setRemove_iff _ _ _).mp (ih _ _ _ hp)).1
    · exact fun p hp => ((mem_setRemove_iff _ _ _).mp (ih _ _ _ hp)).1
    · exact ih _ _ _

theorem cleanupFilesLoop_tracked_stuck (l : List FsPath) :
    ∀ (fs : FS) (t d : List FsPath) (f : FsPath),
      f ∈ (cleanupFilesLoop l fs t d).2.1 → f ∈ l →
      f ∉ fs.dirs ∧ f ∉ (cleanupFilesLoop l fs t d).1.fileNames := by
  induction l with
  | nil => intro fs t d f _ hfl; cases hfl
  | cons a rest ih =>
    intro fs t d f hf hfl
    unfold cleanupFilesLoop at hf ⊢
    split_ifs at hf ⊢ with h1 h2
    · have hfa : f ≠ a := by
        intro h
        subst h
        exact ((mem_setRemove_iff _ _ _).mp
          (cleanupFilesLoop_tracked_subset _ _ _ _ hf)).2 rfl
      exact ih _ _ _ f hf (List.mem_of_ne_of_mem hfa hfl)
    · have hfa : f ≠ a := by
        intro h
        subst h
        exact ((mem_setRemove_iff _ _ _).mp
          (cleanupFilesLoop_tracked_subset _ _ _ _ hf)).2 rfl
      have := ih _ _ _ f hf (List.mem_of_ne_of_mem hfa hfl)
      exact ⟨this.1, this.2⟩
    · by_cases hfa : f = a
      · subst hfa
        refine ⟨h1, fun hmem => h2 ?_⟩
        exact cleanupFilesLoop_files_subset _ _ _ _ hmem
      · exact ih _ _ _ f hf (List.mem_of_ne_of_mem hfa hfl)

theorem cleanupFilesLoop_deferred_subset (l : List FsPath) (fs : FS)
    (t d : List FsPath) : (cleanupFilesLoop l fs t d).2.2 ⊆ d ++ l := by
  induction l generalizing fs t d with
  | nil => exact fun p hp => List.mem_append_left _ hp
  | cons a rest ih =>
    unfold cleanupFilesLoop
    split_ifs with h1 h2
    · intro p hp
      have := ih _ _ _ hp
      rw [List.mem_append] at this
      rcases this with h | h
      · rw [List.mem_append] at h
        rcases h with h | h
        · exact List.mem_append_left _ h
        · rw [List.mem_singleton] at h
          exact List.mem_append_right _ (h ▸ List.mem_cons_self a rest)
      · exact List.mem_append_right _ (List.mem_cons_of_mem a h)
    · intro p hp
      have := ih _ _ _ hp
      rw [List.mem_append] at this
      rcases this with h | h
      · exact List.mem_append_left _ h
      · exact List.mem_append_right _ (List.mem_cons_of_mem a h)
    · intro p hp
      have := ih _ _ _ hp
      rw [List.mem_append] at this
      rcases this with h | h
      · exact List.mem_append_left _ h
      · exact List.mem_append_right _ (List.mem_cons_of_mem a h)

theorem cleanupFilesLoop_noop (l : List FsPath) (fs : FS) (t d : List FsPath)
    (h : ∀ f ∈ l, ¬ fs.isdir f ∧ f ∉ fs.fileNames) :
    cleanupFilesLoop l fs t d = (fs, t, d) := by
  induction l generalizing fs t d with
  | nil => rfl
  | cons a rest ih =>
    obtain ⟨ha1, ha2⟩ := h a (List.mem_cons_self a rest)
    unfold cleanupFilesLoop
    rw [if_neg ha1, if_neg ha2]
    exact ih _ _ _ (fun f hf => h f (List.mem_cons_of_mem a hf))

theorem cleanupDirsLoop_files (l : List FsPath) (fs : FS) :
    (cleanupDirsLoop l fs).files = fs.files := by
  induction l generalizing fs with
  | nil => rfl
  | cons a rest ih =>
    unfold cleanupDirsLoop
    split_ifs with h1
    · rw [ih]
      rfl
    · exact ih fs

theorem cleanupDirsLoop_dirs_subset (l : List FsPath) (fs : FS) {p : FsPath}
    (h : p ∈ (cleanupDirsLoop l fs).dirs) : p ∈ fs.dirs := by
  induction l generalizing fs with
  | nil => exact h
  | cons a rest ih =>
    unfold cleanupDirsLoop at h
    split_ifs at h with h1
    · exact ((mem_dirs_removeDir fs a p).mp (ih _ h)).1
    · exact ih _ h

theorem cleanupDirsLoop_dirs_preserved (l : List FsPath) (fs : FS)
    {p : FsPath} (hp : p ∉ l) :
    p ∈ (cleanupDirsLoop l fs).dirs ↔ p ∈ fs.dirs := by
  induction l generalizing fs with
  | nil => exact Iff.rfl
  | cons a rest ih =>
    have hpa : p ≠ a := fun h => hp (h ▸ List.mem_cons_self a rest)
    have hpr : p ∉ rest := fun h => hp (List.mem_cons_of_mem a h)
    unfold cleanupDirsLoop
    split_ifs with h1
    · rw [ih _ hpr, mem_dirs_removeDir]
      exact ⟨fun h => h.1, fun h => ⟨h, hpa⟩⟩
    · exact ih _ hpr

theorem cleanupDirsLoop_allPaths_subset (l : List FsPath) (fs : FS)
    {p : FsPath} (h : p ∈ (cleanupDirsLoop l fs).allPaths) : p ∈ fs.allPaths := by
  unfold FS.allPaths at h ⊢
  rw [List.mem_append] at h ⊢
  rcases h with h | h
  · exact Or.inl (cleanupDirsLoop_dirs_subset l fs h)
  · refine Or.inr ?_
    unfold FS.fileNames at h ⊢
    rw [cleanupDirsLoop_files] at h
    exact h

theorem dirEmpty_mono {fs fs₂ : FS} {d : FsPath}
    (hsub : ∀ p ∈ fs₂.allPaths, p ∈ fs.allPaths) (he : fs.dirEmpty d) :
    fs₂.dirEmpty d :=
  fun p hp => he p (hsub p hp)

theorem cleanupDirsLoop_removed_empty (l : List FsPath) (fs : FS) {d : FsPath}
    (hd : d ∈ fs.dirs) (hrm : d ∉ (cleanupDirsLoop l fs).dirs) :
    (cleanupDirsLoop l fs).dirEmpty d := by
  induction l generalizing fs with
  | nil => exact absurd hd hrm
  | cons a rest ih =>
    unfold cleanupDirsLoop at hrm ⊢
    split_ifs at hrm ⊢ with h1
    · by_cases hda : d = a
      · subst hda
        exact dirEmpty_mono
          (fun p hp => by
            have := cleanupDirsLoop_allPaths_subset rest _ hp
            unfold FS.allPaths FS.fileNames FS.removeDir at this
            rw [List.mem_append] at this
            rcases this with h | h
            · exact List.mem_append_left _ (List.mem_of_mem_filter h)
            · exact List.mem_append_right _ h)
          h1.2
      · exact ih _ ((mem_dirs_removeDir fs a d).mpr ⟨hd, hda⟩) hrm
    · exact ih _ hd hrm

theorem blob_fetch_commit_order_witness :
    committedDigests (downloadModelRaising exCfg exEnvOk exManifestABC
        "DATA" "m" "t" exSt).2.2
      = ["sha256:dddd", "sha256:aaaa", "sha256:bbbb", "sha256:cccc"] :=
  ((blob_fetch_commit_order exCfg exEnvOk exManifestABC "DATA" "m" "t" exSt).2
    (by decide)).trans (by decide)

/-- Claim C6: parsing a model identifier splits on the colon with default tag
"latest" and on the slash for hub owner/repo: "llama3.1:8b" yields model
"llama3.1" and tag "8b"; "llama3.1" (no colon) yields tag "latest"; and
"bartowski/Llama-3.2-1B-Instruct-GGUF:Q4_K_M" yields owner "bartowski",
repo "Llama-3.2-1B-Instruct-GGUF", quant "Q4_K_M". -/
theorem identifier_parsing_roundtrip :
    parseOllamaIdentifier "llama3.1:8b" = some ("llama3.1", "8b") ∧
    parseOllamaIdentifier "llama3.1" = some ("llama3.1", "latest") ∧
    parseHuggingFaceIdentifier "bartowski/Llama-3.2-1B-Instruct-GGUF:Q4_K_M"
      = some ("bartowski", "Llama-3.2-1B-Instruct-GGUF", "Q4_K_M") :=
  ⟨by decide, by decide, by decide⟩

/-- Claim C2: when the computed digest differs from the manifest-declared
digest (with its 7-character algorithm prefix removed),
_copy_blob_to_destination fails before any filesystem action: the returned
state — filesystem and pending-work set alike — is exactly the input state,
so nothing is moved, the temporary file is not deleted, and it remains in
the pending-work set for later rollback. -/
theorem commit_blob_digest_mismatch_fails_closed
    (cfg : StoreCfg) (st : DLState) (source : FsPath) (nd cd : String)
    (h : cd ≠ pyDrop 7 nd) :
    copyBlobToDestination cfg st source nd cd = ((false, none), st) := by
  unfold copyBlobToDestination
  simp [h]

theorem commit_blob_digest_mismatch_fails_closed_witness :
    ("beef" ≠ pyDrop 7 "sha256:abcd") ∧
    copyBlobToDestination ⟨["root"], "reg"⟩
        ⟨⟨[["root"], ["root", "blobs"]], [(["tmp", "t1"], "B")]⟩, [["tmp", "t1"]]⟩
        ["tmp", "t1"] "sha256:abcd" "beef"
      = ((false, none),
        ⟨⟨[["root"], ["root", "blobs"]], [(["tmp", "t1"], "B")]⟩, [["tmp", "t1"]]⟩) :=
  ⟨by decide, commit_blob_digest_mismatch_fails_closed _ _ _ _ _ (by decide)⟩

/-- Claim C3 is false as stated: a successful _copy_blob_to_destination
removes the temporary path from the pending-work set but then ADDS the final
blob path to it (downloader/model_downloader.py:284), so the committed
artifact remains eligible for automatic rollback deletion.  Concretely,
committing temp file "tmp/t1" as blob sha256:abcd succeeds and leaves
"root/blobs/sha256-abcd" in the pending-work set. -/
theorem commit_tracks_final_path_cex :
    (copyBlobToDestination ⟨["root"], "reg"⟩
        ⟨⟨[["root"], ["root", "blobs"]], [(["tmp", "t1"], "B")]⟩, [["tmp", "t1"]]⟩
        ["tmp", "t1"] "sha256:abcd" "abcd").1.1 = true ∧
    ["root", "blobs", "sha256-abcd"] ∈
      (copyBlobToDestination ⟨["root"], "reg"⟩
        ⟨⟨[["root"], ["root", "blobs"]], [(["tmp", "t1"], "B")]⟩, [["tmp", "t1"]]⟩
        ["tmp", "t1"] "sha256:abcd" "abcd").2.unnecessary := by
  exact ⟨by decide, by decide⟩

/-- Claim C3, amended: after a successful _copy_blob_to_destination the
temporary path is removed from the pending-work set, but the final blob path
IS added to it, and the saved manifest file is likewise tracked
(downloader/model_downloader.py:203) — committed artifacts stay eligible for
rollback until the set is cleared. -/
theorem commit_tracking_amended :
    (∀ (cfg : StoreCfg) (st : DLState) (source : FsPath) (nd cd : String),
      (copyBlobToDestination cfg st source nd cd).1.1 = true →
        cfg.blobTarget nd ∈ (copyBlobToDestination cfg st source nd cd).2.unnecessary ∧
        (source ≠ cfg.blobTarget nd →
          source ∉ (copyBlobToDestination cfg st source nd cd).2.unnecessary)) ∧
    (∀ (cfg : StoreCfg) (st : DLState) (data model tag : String),
      cfg.manifestTarget model tag
        ∈ (saveManifestToDestination cfg st data model tag).2.unnecessary) := by
  constructor
  · intro cfg st source nd cd h
    rw [copyBlob_success_state cfg st source nd cd h]
    constructor
    · exact mem_setAdd_self _ _
    · intro hne hmem
      rcases (mem_setAdd_iff _ _ _).mp hmem with hmem | rfl
      · exact ((mem_setRemove_iff _ _ _).mp hmem).2 rfl
      · exact hne rfl
  · intro cfg st data model tag
    by_cases hmiss : st.fs.pathExists (cfg.manifestsDir model) <;>
      simp [saveManifestToDestination, hmiss, StoreCfg.manifestTarget, mem_setAdd_self]

theorem commit_tracking_amended_witness :
    ["root", "blobs", "sha256-abcd"] ∈
      (copyBlobToDestination ⟨["root"], "reg"⟩
        ⟨⟨[["root"], ["root", "blobs"]], [(["tmp", "t1"], "B")]⟩, [["tmp", "t1"]]⟩
        ["tmp", "t1"] "sha256:abcd" "abcd").2.unnecessary ∧
    ["tmp", "t1"] ∉
      (copyBlobToDestination ⟨["root"], "reg"⟩
        ⟨⟨[["root"], ["root", "blobs"]], [(["tmp", "t1"], "B")]⟩, [["tmp", "t1"]]⟩
        ["tmp", "t1"] "sha256:abcd" "abcd").2.unnecessary ∧
    (StoreCfg.manifestTarget ⟨["root"], "reg"⟩ "m" "t") ∈
      (saveManifestToDestination ⟨["root"], "reg"⟩ ⟨⟨[["root"]], []⟩, []⟩
        "DATA" "m" "t").2.unnecessary :=
  ⟨(commit_tracking_amended.1 _ _ _ _ _ (by decide)).1,
   (commit_tracking_amended.1 _ _ _ _ _ (by decide)).2 (by decide),
   commit_tracking_amended.2 _ _ "DATA" "m" "t"⟩

/-- Claim C4 is false as stated: the inventory scan's acceptance window is
symmetric around the manifest-save timestamp, not a window after it — an
entry whose modified_at lies 30 seconds BEFORE the save timestamp is
accepted (with matching name), because the code compares
abs(modified_at - ts) < timedelta(minutes=1). -/
theorem inventory_window_cex :
    findDownloadedModel [⟨"llama3.1:8b", 970⟩] "llama3.1" "8b" 1000
      = some ⟨"llama3.1:8b", 970⟩ ∧ (970 : Int) < 1000 :=
  ⟨by decide, by decide⟩

/-- Claim C4, amended: the post-download inventory check accepts an entry if
and only if its name equals "model:tag" and its last-modified timestamp
differs from the manifest-save timestamp T by strictly less than one minute
in either direction: T + 30 s with matching name is accepted, T + 90 s is
rejected, and so is any |offset| of a minute or more. -/
theorem inventory_window_symmetric (models : List InventoryEntry)
    (model tag : String) (ts : Int) :
    (findDownloadedModel models model tag ts).isSome ↔
      ∃ e ∈ models, e.model = model ++ ":" ++ tag ∧ (e.modifiedAt - ts).natAbs < 60 := by
  unfold findDownloadedModel
  simp [List.find?_isSome, and_assoc]

theorem inventory_window_symmetric_witness :
    (findDownloadedModel [⟨"m:t", 1030⟩] "m" "t" 1000).isSome ∧
    ¬ (findDownloadedModel [⟨"m:t", 1090⟩] "m" "t" 1000).isSome :=
  ⟨(inventory_window_symmetric [⟨"m:t", 1030⟩] "m" "t" 1000).mpr
      ⟨⟨"m:t", 1030⟩, by decide, by decide, by decide⟩,
   fun h => by
      have := (inventory_window_symmetric [⟨"m:t", 1090⟩] "m" "t" 1000).mp h
      simp at this⟩

/-- Claim C7 is false as stated: _save_manifest_to_destination does create
every missing manifest directory level (os.makedirs), but records only the
leaf model directory in the pending-work set — here the newly created
intermediate directory root/manifests is on disk afterwards yet absent from
the pending-work set. -/
theorem manifest_dir_tracking_cex :
    (["root", "manifests"] ∉ (([["root"]] : List FsPath))) ∧
    ["root", "manifests"] ∈
      (saveManifestToDestination ⟨["root"], "reg"⟩ ⟨⟨[["root"]], []⟩, []⟩
        "DATA" "m" "t").2.fs.dirs ∧
    ["root", "manifests"] ∉
      (saveManifestToDestination ⟨["root"], "reg"⟩ ⟨⟨[["root"]], []⟩, []⟩
        "DATA" "m" "t").2.unnecessary := by
  exact ⟨by decide, by decide, by decide⟩

/-- Claim C7, amended: _copy_blob_to_destination fails without moving
anything when the blobs directory is missing, and it never creates any
directory; _save_manifest_to_destination auto-creates the missing manifest
directory tree but records only the leaf model directory (not newly created
intermediate levels) in the pending-work set. -/
theorem store_dir_policy_amended :
    (∀ (cfg : StoreCfg) (st : DLState) (source : FsPath) (nd cd : String),
      ¬ st.fs.isdir cfg.blobsDir →
        copyBlobToDestination cfg st source nd cd = ((false, none), st)) ∧
    (∀ (cfg : StoreCfg) (st : DLState) (source : FsPath) (nd cd : String),
      (copyBlobToDestination cfg st source nd cd).2.fs.dirs = st.fs.dirs) ∧
    (∀ (cfg : StoreCfg) (st : DLState) (data model tag : String),
      ¬ st.fs.pathExists (cfg.manifestsDir model) →
        cfg.manifestsDir model
          ∈ (saveManifestToDestination cfg st data model tag).2.fs.dirs ∧
        cfg.manifestsDir model
          ∈ (saveManifestToDestination cfg st data model tag).2.unnecessary) := by
  refine ⟨?_, ?_, ?_⟩
  · intro cfg st source nd cd hdir
    unfold copyBlobToDestination
    by_cases h1 : cd = pyDrop 7 nd
    · rw [h1]
      simp [hdir]
    · simp [h1]
  · intro cfg st source nd cd
    by_cases h : (copyBlobToDestination cfg st source nd cd).1.1 = true
    · rw [copyBlob_success_state cfg st source nd cd h]
      exact move_dirs _ _ _
    · rw [copyBlob_failure_state cfg st source nd cd (by simpa using h)]
  · intro cfg st data model tag hmiss
    have hne : cfg.manifestsDir model ≠ [] := by
      unfold StoreCfg.manifestsDir StoreCfg.manifestsToplevelDir
      simp
    constructor
    · simp only [saveManifestToDestination, hmiss, not_false_iff, if_pos]
      unfold FS.writeFile
      exact makedirs_mem_self _ hne
    · simp only [saveManifestToDestination, hmiss, not_false_iff, if_pos]
      exact (mem_setAdd_iff _ _ _).mpr (Or.inl (mem_setAdd_self _ _))

theorem store_dir_policy_amended_witness :
    copyBlobToDestination ⟨["root"], "reg"⟩ ⟨⟨[["root"]], [(["tmp", "t1"], "B")]⟩, []⟩
        ["tmp", "t1"] "sha256:abcd" "abcd" = ((false, none),
        ⟨⟨[["root"]], [(["tmp", "t1"], "B")]⟩, []⟩) ∧
    (copyBlobToDestination ⟨["root"], "reg"⟩ ⟨⟨[["root"]], [(["tmp", "t1"], "B")]⟩, []⟩
        ["tmp", "t1"] "sha256:abcd" "abcd").2.fs.dirs = [["root"]] ∧
    ["root", "manifests", "reg", "library", "m"]
      ∈ (saveManifestToDestination ⟨["root"], "reg"⟩ ⟨⟨[["root"]], []⟩, []⟩
          "DATA" "m" "t").2.unnecessary :=
  ⟨store_dir_policy_amended.1 _ _ _ _ _ (by decide),
   store_dir_policy_amended.2.1 ⟨["root"], "reg"⟩
     ⟨⟨[["root"]], [(["tmp", "t1"], "B")]⟩, []⟩ ["tmp", "t1"] "sha256:abcd" "abcd",
   (store_dir_policy_amended.2.2 ⟨["root"], "reg"⟩ ⟨⟨[["root"]], []⟩, []⟩
      "DATA" "m" "t" (by decide)).2⟩

/-- Claim C10: digest verification is hard-coded to SHA-256 with a
7-character prefix strip: the digest _download_model_blob computes is the
SHA-256 of the received bytes whatever algorithm the descriptor names, and
(given an existing blobs directory) _copy_blob_to_destination succeeds
exactly when that hex digest equals the declared digest string with its
first 7 characters removed — no validation of the algorithm name or of the
hex length is performed. -/
theorem digest_verification_sha256_prefix7 :
    (∀ (env : FetchEnv) (st : DLState) (nd : String),
      (downloadModelBlob env st nd).1.2 = env.sha256Hex (env.contentOf nd)) ∧
    (∀ (cfg : StoreCfg) (st : DLState) (source : FsPath) (nd cd : String),
      st.fs.isdir cfg.blobsDir →
        ((copyBlobToDestination cfg st source nd cd).1.1 = true ↔
          cd = pyDrop 7 nd)) := by
  constructor
  · intro env st nd
    rfl
  · intro cfg st source nd cd hdir
    rw [copyBlob_success_iff]
    exact ⟨fun h => h.1, fun h => ⟨h, hdir⟩⟩

theorem digest_verification_sha256_prefix7_witness :
    (downloadModelBlob ⟨fun _ => ["tmp", "t"], fun _ => "B", fun _ => "HB"⟩
        ⟨⟨[], []⟩, []⟩ "blake2:aaaa").1.2 = "HB" ∧
    ((copyBlobToDestination ⟨["root"], "reg"⟩
        ⟨⟨[["root"], ["root", "blobs"]], [(["tmp", "t"], "B")]⟩, []⟩
        ["tmp", "t"] "blake2:aaaa" "aaaa").1.1 = true ↔ ("aaaa" : String) = pyDrop 7 "blake2:aaaa") :=
  ⟨digest_verification_sha256_prefix7.1 _ _ "blake2:aaaa",
   digest_verification_sha256_prefix7.2 _ _ _ "blake2:aaaa" "aaaa" (by decide)⟩

theorem cleanupDirsLoop_fileNames (l : List FsPath) (fs : FS) :
    (cleanupDirsLoop l fs).fileNames = fs.fileNames := by
  unfold FS.fileNames
  rw [cleanupDirsLoop_files]

/-- Claim C8: cleanup_unnecessary_files deletes every tracked plain file,
deletes a tracked directory only if it is empty (a directory removed from
the filesystem is tracked and empty even in the final state; a non-empty one
is left in place, non-fatally), leaves every untracked path untouched, is a
no-op while a cleanup is already running (re-entrancy guard), and calling it
a second time changes nothing. -/
theorem rollback_cleanup_properties :
    (∀ s : CleanupState, s.cleanupRunning = true →
      cleanupUnnecessaryFiles s = s) ∧
    (∀ (s : CleanupState) (f : FsPath), s.cleanupRunning = false →
      f ∈ s.tracked → ¬ s.fs.isdir f →
      f ∉ (cleanupUnnecessaryFiles s).fs.fileNames) ∧
    (∀ (s : CleanupState) (d : FsPath), s.cleanupRunning = false →
      d ∈ s.fs.dirs → d ∉ (cleanupUnnecessaryFiles s).fs.dirs →
      d ∈ s.tracked ∧ (cleanupUnnecessaryFiles s).fs.dirEmpty d) ∧
    (∀ (s : CleanupState) (p : FsPath), p ∉ s.tracked →
      ((p ∈ (cleanupUnnecessaryFiles s).fs.fileNames ↔ p ∈ s.fs.fileNames) ∧
       (p ∈ (cleanupUnnecessaryFiles s).fs.dirs ↔ p ∈ s.fs.dirs))) ∧
    (∀ s : CleanupState, s.cleanupRunning = false →
      cleanupUnnecessaryFiles (cleanupUnnecessaryFiles s)
        = cleanupUnnecessaryFiles s) := by
  have hguard : ∀ s : CleanupState, s.cleanupRunning = false →
      ¬ (s.cleanupRunning = true) := by
    intro s h
    simp [h]
  refine ⟨?_, ?_, ?_, ?_, ?_⟩
  · intro s h
    unfold cleanupUnnecessaryFiles
    rw [if_pos h]
  · intro s f hrun hf hnd
    unfold cleanupUnnecessaryFiles
    rw [if_neg (hguard s hrun)]
    show f ∉ (cleanupDirsLoop _ _).fileNames
    rw [cleanupDirsLoop_fileNames]
    exact cleanupFilesLoop_removes_file s.tracked s.fs s.tracked [] f hf hnd
  · intro s d hrun hd hrm
    unfold cleanupUnnecessaryFiles at hrm ⊢
    rw [if_neg (hguard s hrun)] at hrm ⊢
    have htrk : d ∈ s.tracked := by
      by_contra hnt
      have hdef : d ∉ (cleanupFilesLoop s.tracked s.fs s.tracked []).2.2 := by
        intro hmem
        have := cleanupFilesLoop_deferred_subset s.tracked s.fs s.tracked [] hmem
        rw [List.nil_append] at this
        exact hnt this
      apply hrm
      show d ∈ (cleanupDirsLoop _ _).dirs
      rw [cleanupDirsLoop_dirs_preserved _ _ hdef, cleanupFilesLoop_dirs]
      exact hd
    refine ⟨htrk, ?_⟩
    exact cleanupDirsLoop_removed_empty _ _
      (by rw [cleanupFilesLoop_dirs]; exact hd) hrm
  · intro s p hp
    by_cases hrun : s.cleanupRunning = true
    · unfold cleanupUnnecessaryFiles
      rw [if_pos hrun]
      exact ⟨Iff.rfl, Iff.rfl⟩
    · unfold cleanupUnnecessaryFiles
      rw [if_neg hrun]
      constructor
      · show p ∈ (cleanupDirsLoop _ _).fileNames ↔ _
        rw [cleanupDirsLoop_fileNames]
        exact cleanupFilesLoop_files_preserved s.tracked s.fs s.tracked [] hp
      · show p ∈ (cleanupDirsLoop _ _).dirs ↔ _
        have hdef : p ∉ (cleanupFilesLoop s.tracked s.fs s.tracked []).2.2 := by
          intro hmem
          have := cleanupFilesLoop_deferred_subset s.tracked s.fs s.tracked [] hmem
          rw [List.nil_append] at this
          exact hp this
        rw [cleanupDirsLoop_dirs_preserved _ _ hdef, cleanupFilesLoop_dirs]
  · intro s hrun
    have hkey : ∀ f ∈ (cleanupFilesLoop s.tracked s.fs s.tracked []).2.1,
        ¬ (cleanupDirsLoop (cleanupFilesLoop s.tracked s.fs s.tracked []).2.2
            (cleanupFilesLoop s.tracked s.fs s.tracked []).1).isdir f ∧
        f ∉ (cleanupDirsLoop (cleanupFilesLoop s.tracked s.fs s.tracked []).2.2
            (cleanupFilesLoop s.tracked s.fs s.tracked []).1).fileNames := by
      intro f hf
      have hstuck := cleanupFilesLoop_tracked_stuck s.tracked s.fs s.tracked [] f hf
        (cleanupFilesLoop_tracked_subset _ _ _ _ hf)
      constructor
      · intro hmem
        have := cleanupDirsLoop_dirs_subset _ _ hmem
        rw [cleanupFilesLoop_dirs] at this
        exact hstuck.1 this
      · rw [cleanupDirsLoop_fileNames]
        exact hstuck.2
    have hceq : cleanupUnnecessaryFiles s =
        { fs := cleanupDirsLoop (cleanupFilesLoop s.tracked s.fs s.tracked []).2.2
            (cleanupFilesLoop s.tracked s.fs s.tracked []).1,
          tracked := (cleanupFilesLoop s.tracked s.fs s.tracked []).2.1,
          cleanupRunning := false } := by
      unfold cleanupUnnecessaryFiles
      rw [if_neg (hguard s hrun)]
    rw [hceq]
    unfold cleanupUnnecessaryFiles
    rw [if_neg (by simp)]
    rw [cleanupFilesLoop_noop _ _ _ _ hkey]
    rfl

theorem rollback_cleanup_properties_witness :
    cleanupUnnecessaryFiles { exCleanupSt with cleanupRunning := true }
        = { exCleanupSt with cleanupRunning := true } ∧
    (["f"] ∉ (cleanupUnnecessaryFiles exCleanupSt).fs.fileNames ∧
      ["d"] ∉ (cleanupUnnecessaryFiles exCleanupSt).fs.dirs) ∧
    (["d"] ∈ exCleanupSt.tracked ∧
      (cleanupUnnecessaryFiles exCleanupSt).fs.dirEmpty ["d"]) ∧
    (["e", "g"] ∈ (cleanupUnnecessaryFiles exCleanupSt).fs.fileNames ↔
      ["e", "g"] ∈ exCleanupSt.fs.fileNames) ∧
    cleanupUnnecessaryFiles (cleanupUnnecessaryFiles exCleanupSt)
      = cleanupUnnecessaryFiles exCleanupSt :=
  ⟨rollback_cleanup_properties.1 _ rfl,
   ⟨rollback_cleanup_properties.2.1 exCleanupSt ["f"] rfl (by decide) (by decide),
    by decide⟩,
   rollback_cleanup_properties.2.2.1 exCleanupSt ["d"] rfl (by decide) (by decide),
   (rollback_cleanup_properties.2.2.2.1 exCleanupSt ["e", "g"] (by decide)).1,
   rollback_cleanup_properties.2.2.2.2 exCleanupSt rfl⟩

/-- Claim C9: _unnecessary_files and _cleanup_running are class attributes of
the Downloader base class and no subclass __init__ shadows them on the
instance, so all downloader instances share one pending-work set: a path
tracked through one instance is visible through any other, and a cleanup
invoked through any other instance deletes that file. -/
theorem class_level_tracker_shared :
    (∀ (cls : DownloaderClassState) (a b : DownloaderInstance) (p : FsPath),
      a.instUnnecessaryFiles = none → b.instUnnecessaryFiles = none →
      p ∈ readUnnecessaryFiles (trackViaInstance cls a p).1 b) ∧
    (∀ (cls : DownloaderClassState) (a b : DownloaderInstance) (fs : FS)
        (p : FsPath),
      a.instUnnecessaryFiles = none → b.instUnnecessaryFiles = none →
      cls.cleanupRunning = false → ¬ fs.isdir p →
      p ∉ ((cleanupViaInstance (trackViaInstance cls a p).1 b fs).2).fileNames) := by
  constructor
  · intro cls a b p ha hb
    unfold trackViaInstance readUnnecessaryFiles
    rw [ha, hb]
    exact mem_setAdd_self _ _
  · intro cls a b fs p ha hb hrun hnd
    unfold cleanupViaInstance trackViaInstance readUnnecessaryFiles
    rw [ha, hb]
    unfold cleanupUnnecessaryFiles
    rw [if_neg (by simp [hrun])]
    show p ∉ (cleanupDirsLoop _ _).fileNames
    rw [cleanupDirsLoop_fileNames]
    exact cleanupFilesLoop_removes_file _ _ _ [] p (mem_setAdd_self _ _) hnd

theorem class_level_tracker_shared_witness :
    ["tmp", "t1"] ∈ readUnnecessaryFiles
        (trackViaInstance ⟨[], false⟩ freshDownloaderInstance ["tmp", "t1"]).1
        freshDownloaderInstance ∧
    ["tmp", "t1"] ∉ ((cleanupViaInstance
        (trackViaInstance ⟨[], false⟩ freshDownloaderInstance ["tmp", "t1"]).1
        freshDownloaderInstance
        ⟨[], [(["tmp", "t1"], "B")]⟩).2).fileNames :=
  ⟨class_level_tracker_shared.1 ⟨[], false⟩ freshDownloaderInstance
      freshDownloaderInstance ["tmp", "t1"] rfl rfl,
   class_level_tracker_shared.2 ⟨[], false⟩ freshDownloaderInstance
      freshDownloaderInstance ⟨[], [(["tmp", "t1"], "B")]⟩ ["tmp", "t1"]
      rfl rfl rfl (by decide)⟩

end OllamaDownloader
